import Mathlib

/-!
Verification of the thermal-ai repository against its specification.

The numeric helpers of `web-ui/src/lib/math.ts` and the protocol constants
of the constants module are embedded over exact rationals (`ℚ`); JavaScript
number semantics (IEEE-754 binary64) are modelled where a claim depends on
them: an exact-significand model `flN`/`fdiv`/`fmul` of positive normal
doubles with round-to-nearest-even for the substep-count computation, and an
extended-value model `JsNum` (finite / +Infinity / -Infinity / NaN) for the
division-by-zero behaviour of `dxFromN` and for the `drawHeatmap` pixel loop
of `web-ui/src/App.tsx`.
-/

set_option maxRecDepth 100000

namespace ThermalAI

/-! ## Embedding of web-ui/src/lib/math.ts over exact rationals -/

/-- Source `dxFromN(n) = 1 / (n - 1)` from web-ui/src/lib/math.ts. -/
def dxFromN (n : ℚ) : ℚ := 1 / (n - 1)

/-- Source `tauFromMu(mu, alpha, dx) = (mu * dx * dx) / alpha`. -/
def tauFromMu (mu alpha dx : ℚ) : ℚ := mu * dx * dx / alpha

/-- Source `expectedK(mu, s) = Math.ceil((4 * mu) / s)`. -/
def expectedK (mu s : ℚ) : ℤ := ⌈(4 * mu) / s⌉

/-! ## Embedding of the constants module (src/unnamed/part_000) -/

def GRID_SIZES : List ℕ := [64, 128]

def MU_SET : List ℚ := [2, 5, 10, 20]

def ALPHA_TRAIN_MIN : ℚ := 5 / 100

def ALPHA_TRAIN_MAX : ℚ := 5 / 10

def S_RUN : ℚ := 8 / 10

def S_REF : ℚ := 4 / 10

/-! ## Spec-side derivation of the substep count (for the refinement claim C1)

The spec derives `k = ceil(tau / (s * dt_max))` with `dt_max = dx^2 / (4*alpha)`.
These two definitions follow the words of the spec, to be compared with the
hardcoded `expectedK` of the source. -/

/-- Following the words of the spec: `dt_max = dx² / (4α)`, the
four-neighbor-stencil CFL-type bound. -/
def dtMaxSpec (alpha dx : ℚ) : ℚ := dx * dx / (4 * alpha)

/-- Following the words of the spec: `k = ceil(τ / (s·dt_max))`. -/
def kFromDerivationSpec (alpha mu s dx : ℚ) : ℤ :=
  ⌈tauFromMu mu alpha dx / (s * dtMaxSpec alpha dx)⌉

/-! ## Basic facts about the grid spacing -/

theorem cast_sub_one_pos {N : ℕ} (h : 2 ≤ N) : (1 : ℚ) ≤ (N : ℚ) - 1 := by
  have h2 : (2 : ℚ) ≤ (N : ℚ) := by exact_mod_cast h
  linarith

theorem dxFromN_pos {N : ℕ} (h : 2 ≤ N) : 0 < dxFromN (N : ℚ) := by
  have h1 := cast_sub_one_pos h
  unfold dxFromN
  positivity

/-- Claim C1: for every α>0, μ>0 and s in (0,1], the substep count computed by
`expectedK` equals `ceil(4μ/s)` exactly and coincides with the full spec
derivation `ceil(τ / (s·dt_max))` with `τ = μ·dx²/α`, `dt_max = dx²/(4α)` and
`dx = 1/(N−1)`, for every N ≥ 2; in particular it is independent of N and α. -/
theorem expectedK_matches_full_derivation
    (alpha mu s : ℚ) (N : ℕ) (ha : 0 < alpha) (hm : 0 < mu)
    (hs : 0 < s) (hs1 : s ≤ 1) (hN : 2 ≤ N) :
    expectedK mu s = ⌈(4 * mu) / s⌉ ∧
    expectedK mu s = kFromDerivationSpec alpha mu s (dxFromN (N : ℚ)) := by
  refine ⟨rfl, ?_⟩
  unfold expectedK kFromDerivationSpec
  congr 1
  have hdx : 0 < dxFromN (N : ℚ) := dxFromN_pos hN
  unfold tauFromMu dtMaxSpec
  field_simp
  ring

theorem expectedK_matches_full_derivation_witness :
    expectedK 10 (4 / 5) = ⌈(4 * (10 : ℚ)) / (4 / 5)⌉ ∧
    expectedK 10 (4 / 5) = kFromDerivationSpec (1 / 5) 10 (4 / 5) (dxFromN ((64 : ℕ) : ℚ)) :=
  expectedK_matches_full_derivation (1 / 5) 10 (4 / 5) 64
    (by norm_num) (by norm_num) (by norm_num) (by norm_num) (by norm_num)

/-- Claim C2: for every N ≥ 2, μ>0 and α>0, `tauFromMu μ α (dxFromN N)`
returns τ = μ·(1/(N−1))²/α. -/
theorem tauFromMu_formula
    (mu alpha : ℚ) (N : ℕ) (hm : 0 < mu) (ha : 0 < alpha) (hN : 2 ≤ N) :
    tauFromMu mu alpha (dxFromN (N : ℚ)) = mu * (1 / ((N : ℚ) - 1)) ^ 2 / alpha := by
  unfold tauFromMu dxFromN
  ring

theorem tauFromMu_formula_witness :
    tauFromMu 10 (1 / 5) (dxFromN ((64 : ℕ) : ℚ)) = 10 * (1 / (((64 : ℕ) : ℚ) - 1)) ^ 2 / (1 / 5) :=
  tauFromMu_formula 10 (1 / 5) 64 (by norm_num) (by norm_num) (by norm_num)

/-- Claim C3 (code behaviour at the failing input): `expectedK(0, s)` is `0`,
not the clamped value `≥ 1` that the spec requires for μ = 0; shown at the
concrete margin s = 0.4. -/
theorem expectedK_mu_zero_is_zero : expectedK 0 (2 / 5) = 0 := by
  unfold expectedK
  norm_num

/-- Claim C5: for fixed μ>0 and α>0, τ is strictly decreasing in N: for all
2 ≤ N1 < N2, `tauFromMu μ α (dxFromN N2) < tauFromMu μ α (dxFromN N1)`. -/
theorem tau_strict_anti_in_N
    (mu alpha : ℚ) (N1 N2 : ℕ) (hm : 0 < mu) (ha : 0 < alpha)
    (hN1 : 2 ≤ N1) (h12 : N1 < N2) :
    tauFromMu mu alpha (dxFromN (N2 : ℚ)) < tauFromMu mu alpha (dxFromN (N1 : ℚ)) := by
  have h1 : (1 : ℚ) ≤ (N1 : ℚ) - 1 := cast_sub_one_pos hN1
  have hc : (N1 : ℚ) < (N2 : ℚ) := by exact_mod_cast h12
  have hd1 : (0 : ℚ) < (N1 : ℚ) - 1 := by linarith
  have hd2 : (0 : ℚ) < (N2 : ℚ) - 1 := by linarith
  have hdx : dxFromN (N2 : ℚ) < dxFromN (N1 : ℚ) := by
    unfold dxFromN
    rw [div_lt_div_iff₀ hd2 hd1]
    linarith
  have hdx2 : 0 < dxFromN (N2 : ℚ) := by
    unfold dxFromN
    positivity
  have hsq : dxFromN (N2 : ℚ) * dxFromN (N2 : ℚ) < dxFromN (N1 : ℚ) * dxFromN (N1 : ℚ) := by
    nlinarith
  unfold tauFromMu
  rw [div_lt_div_iff₀ ha ha]
  nlinarith [mul_pos hm ha, hsq]

theorem tau_strict_anti_in_N_witness :
    tauFromMu 10 (1 / 5) (dxFromN ((128 : ℕ) : ℚ)) < tauFromMu 10 (1 / 5) (dxFromN ((64 : ℕ) : ℚ)) :=
  tau_strict_anti_in_N 10 (1 / 5) 64 128 (by norm_num) (by norm_num) (by norm_num) (by norm_num)

/-- Claim C6: the reference margin is stricter than the runtime margin
(S_REF = 0.4 < S_RUN = 0.8, both in (0,1]), `expectedK` is antitone in s, and
consequently the reference margin never uses fewer substeps than the runtime
margin for the same μ. -/
theorem margins_and_expectedK_antitone
    (mu s1 s2 : ℚ) (hm : 0 < mu) (hs1 : 0 < s1) (h12 : s1 ≤ s2) (hs2 : s2 ≤ 1) :
    (S_REF < S_RUN ∧ 0 < S_REF ∧ S_RUN ≤ 1) ∧
    expectedK mu s2 ≤ expectedK mu s1 ∧
    expectedK mu S_RUN ≤ expectedK mu S_REF := by
  have key : ∀ a b : ℚ, 0 < a → a ≤ b → expectedK mu b ≤ expectedK mu a := by
    intro a b hap hab
    unfold expectedK
    apply Int.ceil_le_ceil
    gcongr
  refine ⟨⟨by norm_num [S_REF, S_RUN], by norm_num [S_REF], by norm_num [S_RUN]⟩, ?_, ?_⟩
  · exact key s1 s2 hs1 h12
  · exact key S_REF S_RUN (by norm_num [S_REF]) (by norm_num [S_REF, S_RUN])

theorem margins_and_expectedK_antitone_witness :
    (S_REF < S_RUN ∧ 0 < S_REF ∧ S_RUN ≤ 1) ∧
    expectedK 10 (4 / 5) ≤ expectedK 10 (2 / 5) ∧
    expectedK 10 S_RUN ≤ expectedK 10 S_REF :=
  margins_and_expectedK_antitone 10 (2 / 5) (4 / 5)
    (by norm_num) (by norm_num) (by norm_num) (by norm_num)

/-! ## Model of IEEE-754 binary64 arithmetic on positive normal values

JavaScript numbers are binary64. A positive normal double is represented here
as a pair `(m, e) : ℕ × ℤ` of significand and binade with value `m·2^(e−52)`,
`2^52 ≤ m ≤ 2^53`; `flN a b` rounds the positive rational `a/b` to the nearest
double (ties to even), for binades within `[−64, 64]`, which covers every
value arising in `expectedK`. All arithmetic is on `ℕ`/`ℤ` so concrete
computations reduce in the kernel. -/

/-- Largest `e ∈ [−64, 64]` with `2^e ≤ a/b` (the binade of the positive
rational `a/b`). -/
def binade (a b : ℕ) : ℤ :=
  (List.range 129).foldl
    (fun acc i =>
      let e : ℤ := (i : ℤ) - 64
      if (if 0 ≤ e then 2 ^ e.toNat * b ≤ a else b ≤ 2 ^ (-e).toNat * a) then e else acc)
    (-64)

/-- Round the nonnegative rational `a/b` to the nearest natural number, ties
to even. -/
def rneNat (a b : ℕ) : ℕ :=
  let f := a / b
  let r := a % b
  if 2 * r < b then f else if b < 2 * r then f + 1 else if f % 2 = 0 then f else f + 1

/-- Round the positive rational `a/b` to the nearest binary64 value,
returned as (significand, binade). -/
def flN (a b : ℕ) : ℕ × ℤ :=
  let e := binade a b
  (rneNat (a * 2 ^ (52 - e).toNat) (b * 2 ^ (e - 52).toNat), e)

/-- Exact rational value of a represented double. -/
def dval (x : ℕ × ℤ) : ℚ := (x.1 : ℚ) * (2 : ℚ) ^ (x.2 - 52)

/-- The double holding a small natural number exactly. -/
def fofNat (n : ℕ) : ℕ × ℤ := flN n 1

/-- Correctly rounded binary64 product. -/
def fmul (x y : ℕ × ℤ) : ℕ × ℤ :=
  flN (x.1 * y.1 * 2 ^ (x.2 + y.2 - 104).toNat) (2 ^ (104 - x.2 - y.2).toNat)

/-- Correctly rounded binary64 quotient. -/
def fdiv (x y : ℕ × ℤ) : ℕ × ℤ :=
  flN (x.1 * 2 ^ (x.2 - y.2).toNat) (y.1 * 2 ^ (y.2 - x.2).toNat)

/-- `Math.ceil` of a positive double, exact (the result is an integer). -/
def ceilD (x : ℕ × ℤ) : ℕ :=
  if 52 ≤ x.2 then x.1 * 2 ^ (x.2 - 52).toNat
  else (x.1 + 2 ^ (52 - x.2).toNat - 1) / 2 ^ (52 - x.2).toNat

/-- The binary64 value of the literal `0.8` (constant `S_RUN`). -/
def S_RUN_fp : ℕ × ℤ := flN 4 5

/-- The binary64 value of the literal `0.4` (constant `S_REF`). -/
def S_REF_fp : ℕ × ℤ := flN 2 5

/-- Source `expectedK(mu, s) = Math.ceil((4 * mu) / s)` computed in binary64:
the product `4 * mu` and the quotient are each correctly rounded doubles, and
`Math.ceil` is exact. -/
def expectedK_fp (mu s : ℕ × ℤ) : ℕ := ceilD (fdiv (fmul (fofNat 4) mu) s)

/-- Claim C4 (counterexample to the stated approximation): the end-to-end τ
for N=64, α=0.2, μ=10 equals `(1/63)²·10/0.2 = 50/3969 ≈ 1.2598×10⁻²`, which
is more than twice the value `3.968×10⁻³` the claim asserts it approximates. -/
theorem tau_end_to_end_value_refutes_approx :
    tauFromMu 10 (1 / 5) (dxFromN ((64 : ℕ) : ℚ)) = (1 / 63 : ℚ) ^ 2 * 10 / (1 / 5) ∧
    (1 / 63 : ℚ) ^ 2 * 10 / (1 / 5) = 50 / 3969 ∧
    ¬ ((1 / 63 : ℚ) ^ 2 * 10 / (1 / 5) < 2 * (3968 / 1000000)) := by
  refine ⟨by norm_num [tauFromMu, dxFromN], by norm_num, by norm_num⟩

/-- Claim C4 (amended): for every μ in MU_SET = {2,5,10,20} and both margins
s ∈ {S_REF = 0.4, S_RUN = 0.8}, the binary64 computation of
`Math.ceil((4·μ)/s)` — with s the double nearest the decimal literal — equals
the exact mathematical ceiling of the rational 4μ/s; in particular
`expectedK(10, 0.8) = 50`; and for N=64, α=0.2, μ=10 the end-to-end τ is
`(1/63)²·10/0.2 = 50/3969 ≈ 1.2598×10⁻²` (not 3.968×10⁻³ as originally
claimed). -/
theorem expectedK_fp_exact_on_protocol_grid :
    (∀ m ∈ ([2, 5, 10, 20] : List ℕ),
      ((m : ℚ)) ∈ MU_SET ∧
      (expectedK_fp (fofNat m) S_REF_fp : ℤ) = ⌈(4 * (m : ℚ)) / S_REF⌉ ∧
      (expectedK_fp (fofNat m) S_RUN_fp : ℤ) = ⌈(4 * (m : ℚ)) / S_RUN⌉) ∧
    expectedK_fp (fofNat 10) S_RUN_fp = 50 ∧
    tauFromMu 10 (1 / 5) (dxFromN ((64 : ℕ) : ℚ)) = 50 / 3969 := by
  refine ⟨?_, by decide, by norm_num [tauFromMu, dxFromN]⟩
  intro m hm
  fin_cases hm
  · exact ⟨by norm_num [MU_SET],
      by rw [show expectedK_fp (fofNat 2) S_REF_fp = 20 from by decide]; norm_num [S_REF],
      by rw [show expectedK_fp (fofNat 2) S_RUN_fp = 10 from by decide]; norm_num [S_RUN]⟩
  · exact ⟨by norm_num [MU_SET],
      by rw [show expectedK_fp (fofNat 5) S_REF_fp = 50 from by decide]; norm_num [S_REF],
      by rw [show expectedK_fp (fofNat 5) S_RUN_fp = 25 from by decide]; norm_num [S_RUN]⟩
  · exact ⟨by norm_num [MU_SET],
      by rw [show expectedK_fp (fofNat 10) S_REF_fp = 100 from by decide]; norm_num [S_REF],
      by rw [show expectedK_fp (fofNat 10) S_RUN_fp = 50 from by decide]; norm_num [S_RUN]⟩
  · exact ⟨by norm_num [MU_SET],
      by rw [show expectedK_fp (fofNat 20) S_REF_fp = 200 from by decide]; norm_num [S_REF],
      by rw [show expectedK_fp (fofNat 20) S_RUN_fp = 100 from by decide]; norm_num [S_RUN]⟩

theorem expectedK_fp_exact_on_protocol_grid_witness :
    ((10 : ℚ)) ∈ MU_SET ∧
    (expectedK_fp (fofNat 10) S_REF_fp : ℤ) = ⌈(4 * ((10 : ℕ) : ℚ)) / S_REF⌉ ∧
    (expectedK_fp (fofNat 10) S_RUN_fp : ℤ) = ⌈(4 * ((10 : ℕ) : ℚ)) / S_RUN⌉ := by
  have h := expectedK_fp_exact_on_protocol_grid.1 10 (by norm_num)
  exact_mod_cast h

/-! ## Extended JavaScript number values

For the claims about division by zero in `dxFromN` and the `drawHeatmap`
pixel loop, JavaScript numbers are modelled as finite exact rationals
extended with +Infinity, -Infinity and NaN, with the IEEE-754 special-value
rules for multiplication, addition, division and comparison (finite
arithmetic is kept exact; ℚ has no signed zero, and none of the embedded
code paths produce a negative zero). -/

inductive JsNum where
  | fin (q : ℚ)
  | inf
  | ninf
  | nan
deriving DecidableEq

/-- IEEE-754 multiplication on extended values. -/
def jsMul : JsNum → JsNum → JsNum
  | .nan, _ => .nan
  | _, .nan => .nan
  | .fin a, .fin b => .fin (a * b)
  | .fin a, .inf => if 0 < a then .inf else if a < 0 then .ninf else .nan
  | .inf, .fin b => if 0 < b then .inf else if b < 0 then .ninf else .nan
  | .fin a, .ninf => if 0 < a then .ninf else if a < 0 then .inf else .nan
  | .ninf, .fin b => if 0 < b then .ninf else if b < 0 then .inf else .nan
  | .inf, .inf => .inf
  | .inf, .ninf => .ninf
  | .ninf, .inf => .ninf
  | .ninf, .ninf => .inf

/-- IEEE-754 addition on extended values. -/
def jsAdd : JsNum → JsNum → JsNum
  | .nan, _ => .nan
  | _, .nan => .nan
  | .fin a, .fin b => .fin (a + b)
  | .fin _, .inf => .inf
  | .inf, .fin _ => .inf
  | .fin _, .ninf => .ninf
  | .ninf, .fin _ => .ninf
  | .inf, .inf => .inf
  | .ninf, .ninf => .ninf
  | .inf, .ninf => .nan
  | .ninf, .inf => .nan

/-- IEEE-754 division on extended values (positive zero divisor). -/
def jsDiv : JsNum → JsNum → JsNum
  | .nan, _ => .nan
  | _, .nan => .nan
  | .fin a, .fin b =>
      if b = 0 then (if 0 < a then .inf else if a < 0 then .ninf else .nan)
      else .fin (a / b)
  | .fin _, .inf => .fin 0
  | .fin _, .ninf => .fin 0
  | .inf, .fin b => if 0 ≤ b then .inf else .ninf
  | .ninf, .fin b => if 0 ≤ b then .ninf else .inf
  | .inf, .inf => .nan
  | .inf, .ninf => .nan
  | .ninf, .inf => .nan
  | .ninf, .ninf => .nan

/-- IEEE-754 strict less-than (false whenever either side is NaN). -/
def jsLt : JsNum → JsNum → Bool
  | .nan, _ => false
  | _, .nan => false
  | .fin a, .fin b => decide (a < b)
  | .fin _, .inf => true
  | .fin _, .ninf => false
  | .inf, _ => false
  | .ninf, .inf => true
  | .ninf, .fin _ => true
  | .ninf, .ninf => false

/-- Source `dxFromN(n) = 1 / (n - 1)` under JavaScript number semantics. -/
def dxFromN_js (n : ℚ) : JsNum := jsDiv (.fin 1) (.fin (n - 1))

/-- Source `tauFromMu(mu, alpha, dx) = (mu * dx * dx) / alpha` under
JavaScript number semantics. -/
def tauFromMu_js (mu alpha dx : JsNum) : JsNum := jsDiv (jsMul (jsMul mu dx) dx) alpha

/-- Claim C8: `dxFromN` has N ≥ 2 as a genuine precondition: on N ≥ 2 it
agrees with the exact value and lies in (0,1], while the unguarded division
makes `dxFromN(1)` return Infinity, which `tauFromMu` propagates, rather than
signaling an error. -/
theorem dxFromN_domain_and_unguarded_div :
    (∀ N : ℕ, 2 ≤ N →
      (0 < dxFromN (N : ℚ) ∧ dxFromN (N : ℚ) ≤ 1) ∧
      dxFromN_js ((N : ℕ) : ℚ) = .fin (dxFromN (N : ℚ))) ∧
    dxFromN_js 1 = JsNum.inf ∧
    (∀ mu alpha : ℚ, 0 < mu → 0 < alpha →
      tauFromMu_js (.fin mu) (.fin alpha) .inf = .inf) := by
  refine ⟨?_, ?_, ?_⟩
  · intro N hN
    have h1 := cast_sub_one_pos hN
    have hd : (0 : ℚ) < (N : ℚ) - 1 := by linarith
    refine ⟨⟨dxFromN_pos hN, ?_⟩, ?_⟩
    · unfold dxFromN
      rw [div_le_one hd]
      linarith
    · unfold dxFromN_js dxFromN
      simp only [jsDiv]
      rw [if_neg (ne_of_gt hd)]
  · have h : (1 : ℚ) - 1 = 0 := by norm_num
    unfold dxFromN_js
    rw [h]
    norm_num [jsDiv]
  · intro mu alpha hm ha
    unfold tauFromMu_js
    simp [jsMul, jsDiv, hm, ha.le]

theorem dxFromN_domain_and_unguarded_div_witness :
    ((0 < dxFromN ((64 : ℕ) : ℚ) ∧ dxFromN ((64 : ℕ) : ℚ) ≤ 1) ∧
      dxFromN_js (((64 : ℕ) : ℕ) : ℚ) = .fin (dxFromN ((64 : ℕ) : ℚ))) ∧
    tauFromMu_js (.fin 10) (.fin (1 / 5)) .inf = .inf :=
  ⟨dxFromN_domain_and_unguarded_div.1 64 (by norm_num),
   dxFromN_domain_and_unguarded_div.2.2 10 (1 / 5) (by norm_num) (by norm_num)⟩

/-! ## Embedding of the drawHeatmap pixel loop (web-ui/src/App.tsx) -/

/-- The clamp in the pixel loop: `if (v < 0) v = 0; if (v > 1) v = 1`. -/
def jsClamp01 (v : JsNum) : JsNum :=
  let v1 := if jsLt v (.fin 0) then .fin 0 else v
  if jsLt (.fin 1) v1 then .fin 1 else v1

/-- The quantization `(v * 255) | 0`: JavaScript ToInt32 (truncation toward
zero, wrap-around modulo 2^32; NaN and infinities map to 0). -/
def jsToInt32 : JsNum → ℤ
  | .fin q => (((if q < 0 then ⌈q⌉ else ⌊q⌋) + 2 ^ 31) % 2 ^ 32) - 2 ^ 31
  | _ => 0

/-- The constant `eps = 1e-12` of the draw routine. -/
def EPS : ℚ := 1 / 1000000000000

/-- The maximum pass: `let mx = 0; for (...) if (v > mx) mx = v`. -/
def computeMax (field : List JsNum) : JsNum :=
  field.foldl (fun mx v => if jsLt mx v then v else mx) (.fin 0)

/-- The scale factor: `1 / (mx + eps)` in auto mode, `1` in raw mode. -/
def invFor (auto : Bool) (mx : JsNum) : JsNum :=
  if auto then jsDiv (.fin 1) (jsAdd mx (.fin EPS)) else .fin 1

/-- One pixel of the loop body: scale, clamp, gamma-correct (in auto mode,
via the abstract `Math.pow(·, 0.35)` function `g`), quantize. -/
def pixelByte (auto : Bool) (g : JsNum → JsNum) (inv raw : JsNum) : ℤ :=
  let v := jsMul raw inv
  let v1 := jsClamp01 v
  let v2 := if auto then g v1 else v1
  jsToInt32 (jsMul v2 (.fin 255))

/-- The four image-buffer bytes written for pixel i:
`data[j] = data[j+1] = data[j+2] = c; data[j+3] = 255`. -/
def drawPixel (auto : Bool) (g : JsNum → JsNum) (field : List JsNum) (i : ℕ) :
    ℤ × ℤ × ℤ × ℤ :=
  let c := pixelByte auto g (invFor auto (computeMax field)) (field.getD i (.fin 0))
  (c, c, c, 255)

theorem jsClamp01_cases (v : JsNum) :
    jsClamp01 v = .nan ∨ ∃ q : ℚ, jsClamp01 v = .fin q ∧ 0 ≤ q ∧ q ≤ 1 := by
  cases v with
  | nan => exact Or.inl rfl
  | inf => exact Or.inr ⟨1, rfl, by norm_num⟩
  | ninf =>
      refine Or.inr ⟨0, ?_, by norm_num⟩
      unfold jsClamp01 jsLt
      norm_num
  | fin q =>
      refine Or.inr ?_
      unfold jsClamp01 jsLt
      rcases lt_trichotomy q 0 with h | h | h
      · exact ⟨0, by norm_num [h, not_lt.mpr h.le], by norm_num⟩
      · exact ⟨0, by norm_num [h], by norm_num⟩
      · rcases le_or_lt q 1 with h1 | h1
        · exact ⟨q, by norm_num [not_lt.mpr h.le, not_lt.mpr h1], h.le, h1⟩
        · exact ⟨1, by norm_num [not_lt.mpr h.le, h1, not_lt.mpr (le_of_lt h)], by norm_num⟩

theorem jsToInt32_unit (q : ℚ) (h0 : 0 ≤ q) (h1 : q ≤ 1) :
    0 ≤ jsToInt32 (jsMul (.fin q) (.fin 255)) ∧ jsToInt32 (jsMul (.fin q) (.fin 255)) ≤ 255 := by
  have hq : (0 : ℚ) ≤ q * 255 := by positivity
  have hq2 : q * 255 ≤ 255 := by nlinarith
  show 0 ≤ jsToInt32 (.fin (q * 255)) ∧ jsToInt32 (.fin (q * 255)) ≤ 255
  simp only [jsToInt32]
  rw [if_neg (not_lt.mpr hq)]
  have hl : (0 : ℤ) ≤ ⌊q * 255⌋ := Int.floor_nonneg.mpr hq
  have hu : ⌊q * 255⌋ ≤ 255 := by
    have h255 : (⌊(255 : ℚ)⌋ : ℤ) = 255 := by norm_num
    calc ⌊q * 255⌋ ≤ ⌊(255 : ℚ)⌋ := Int.floor_le_floor hq2
    _ = 255 := h255
  have hmod : (⌊q * 255⌋ + 2 ^ 31) % 2 ^ 32 = ⌊q * 255⌋ + 2 ^ 31 :=
    Int.emod_eq_of_lt (by linarith) (by linarith)
  rw [hmod]
  omega

theorem pixelByte_mem (auto : Bool) (g : JsNum → JsNum)
    (hg : ∀ q : ℚ, 0 ≤ q → q ≤ 1 → ∃ w, g (.fin q) = .fin w ∧ 0 ≤ w ∧ w ≤ 1)
    (hgn : g .nan = .nan) (inv raw : JsNum) :
    0 ≤ pixelByte auto g inv raw ∧ pixelByte auto g inv raw ≤ 255 := by
  have key : ∀ v2 : JsNum, (v2 = .nan ∨ ∃ w, v2 = .fin w ∧ 0 ≤ w ∧ w ≤ 1) →
      0 ≤ jsToInt32 (jsMul v2 (.fin 255)) ∧ jsToInt32 (jsMul v2 (.fin 255)) ≤ 255 := by
    rintro v2 (rfl | ⟨w, rfl, hw0, hw1⟩)
    · simp [jsMul, jsToInt32]
    · exact jsToInt32_unit w hw0 hw1
  simp only [pixelByte]
  apply key
  rcases jsClamp01_cases (jsMul raw inv) with h | ⟨q, h, h0, h1⟩
  · rw [h]
    cases auto
    · exact Or.inl (by simp)
    · exact Or.inl (by simp [hgn])
  · rw [h]
    cases auto
    · exact Or.inr ⟨q, by simp, h0, h1⟩
    · obtain ⟨w, hw, hw0, hw1⟩ := hg q h0 h1
      exact Or.inr ⟨w, by simp [hw], hw0, hw1⟩

/-- Claim C9: the drawHeatmap pixel loop is total and range-safe: for every
field input (negative values, values above the display maximum, infinities,
NaN) and in both display modes, every red/green/blue byte lies in [0, 255]
and every alpha byte is exactly 255. The gamma function g abstracts
`Math.pow(·, 0.35)`, which maps [0,1] into [0,1] and NaN to NaN. -/
theorem drawHeatmap_bytes_in_range (auto : Bool) (g : JsNum → JsNum)
    (field : List JsNum) (i : ℕ)
    (hg : ∀ q : ℚ, 0 ≤ q → q ≤ 1 → ∃ w, g (.fin q) = .fin w ∧ 0 ≤ w ∧ w ≤ 1)
    (hgn : g .nan = .nan) :
    (0 ≤ (drawPixel auto g field i).1 ∧ (drawPixel auto g field i).1 ≤ 255) ∧
    (0 ≤ (drawPixel auto g field i).2.1 ∧ (drawPixel auto g field i).2.1 ≤ 255) ∧
    (0 ≤ (drawPixel auto g field i).2.2.1 ∧ (drawPixel auto g field i).2.2.1 ≤ 255) ∧
    (drawPixel auto g field i).2.2.2 = 255 := by
  have h := pixelByte_mem auto g hg hgn (invFor auto (computeMax field)) (field.getD i (.fin 0))
  exact ⟨h, h, h, rfl⟩

theorem drawHeatmap_bytes_in_range_witness :
    (0 ≤ (drawPixel true (fun v => v) [.fin 2, .nan, .inf, .fin (-3)] 0).1 ∧
      (drawPixel true (fun v => v) [.fin 2, .nan, .inf, .fin (-3)] 0).1 ≤ 255) ∧
    (0 ≤ (drawPixel true (fun v => v) [.fin 2, .nan, .inf, .fin (-3)] 0).2.1 ∧
      (drawPixel true (fun v => v) [.fin 2, .nan, .inf, .fin (-3)] 0).2.1 ≤ 255) ∧
    (0 ≤ (drawPixel true (fun v => v) [.fin 2, .nan, .inf, .fin (-3)] 0).2.2.1 ∧
      (drawPixel true (fun v => v) [.fin 2, .nan, .inf, .fin (-3)] 0).2.2.1 ≤ 255) ∧
    (drawPixel true (fun v => v) [.fin 2, .nan, .inf, .fin (-3)] 0).2.2.2 = 255 :=
  drawHeatmap_bytes_in_range true (fun v => v) [.fin 2, .nan, .inf, .fin (-3)] 0
    (fun q h0 h1 => ⟨q, rfl, h0, h1⟩) rfl

/-! ## The duck-typed field read of drawHeatmap -/

/-- The two dynamic representations accepted by the field read in App.tsx:
a typed `Float32Array` or a plain `Array` of numbers. -/
inductive FieldSource where
  | f32 (xs : List JsNum)
  | plain (xs : List JsNum)

/-- The duck-typed read: whichever branch of the
`instanceof Float32Array / Array.isArray` test is taken, the object is used
through the same indexed-read-and-length protocol. -/
def fieldValues : FieldSource → List JsNum
  | .f32 xs => xs
  | .plain xs => xs

/-- The diagnostics maximum computed from a field source. -/
def computeMaxSrc (src : FieldSource) : JsNum := computeMax (fieldValues src)

/-- The pixel bytes computed from a field source. -/
def drawPixelSrc (auto : Bool) (g : JsNum → JsNum) (src : FieldSource) (i : ℕ) :
    ℤ × ℤ × ℤ × ℤ :=
  drawPixel auto g (fieldValues src) i

/-- Claim C10: the duck-typed field read is representation-independent: for a
Float32Array and a plain number array of equal length and element-wise equal
numeric values, the computed maximum and every pixel byte are identical. -/
theorem drawHeatmap_repr_independent (xs ys : List JsNum) (auto : Bool)
    (g : JsNum → JsNum) (i : ℕ)
    (hlen : xs.length = ys.length)
    (hval : ∀ j, j < xs.length → xs.getD j (.fin 0) = ys.getD j (.fin 0)) :
    computeMaxSrc (.f32 xs) = computeMaxSrc (.plain ys) ∧
    drawPixelSrc auto g (.f32 xs) i = drawPixelSrc auto g (.plain ys) i := by
  have hxy : xs = ys := by
    apply List.ext_getElem hlen
    intro j hj1 hj2
    have h := hval j hj1
    rwa [List.getD_eq_getElem xs _ hj1, List.getD_eq_getElem ys _ hj2] at h
  subst hxy
  exact ⟨rfl, rfl⟩

theorem drawHeatmap_repr_independent_witness :
    computeMaxSrc (.f32 [.fin 1, .nan]) = computeMaxSrc (.plain [.fin 1, .nan]) ∧
    drawPixelSrc false (fun v => v) (.f32 [.fin 1, .nan]) 0 =
      drawPixelSrc false (fun v => v) (.plain [.fin 1, .nan]) 0 :=
  drawHeatmap_repr_independent [.fin 1, .nan] [.fin 1, .nan] false (fun v => v) 0
    rfl (fun j hj => rfl)

/-! ## The Solver orchestrator (spec model)

The Solver itself is the Rust/WASM core; only its callers appear in this
repository, so the mutators are modelled from the specification. -/

/-- Modelled from the spec: SolverConfig — α (diffusivity, α>0), μ (jump
parameter, μ>0), s (stability safety margin, 0<s≤1). -/
structure SolverConfig where
  alpha : ℚ
  mu : ℚ
  s : ℚ

/-- Modelled from the spec: a Solver holds its configuration and the N×N
scalar Field (row-major). -/
structure SolverState where
  n : ℕ
  config : SolverConfig
  field : List ℚ

/-- Modelled from the spec: the error taxonomy of §7. -/
inductive SolverError where
  | InvalidConfig
  | OutOfBounds
  | NotInitialized
deriving DecidableEq

/-- Modelled from the spec: `setAlpha(α)` updates SolverConfig; fails with
`InvalidConfig` if the value is non-positive, leaving the state unchanged. -/
def setAlpha (st : SolverState) (a : ℚ) : SolverState × Option SolverError :=
  if 0 < a then ({ st with config := { st.config with alpha := a } }, none)
  else (st, some .InvalidConfig)

/-- Modelled from the spec: `setMu(μ)` updates SolverConfig; fails with
`InvalidConfig` if the value is non-positive, leaving the state unchanged. -/
def setMu (st : SolverState) (m : ℚ) : SolverState × Option SolverError :=
  if 0 < m then ({ st with config := { st.config with mu := m } }, none)
  else (st, some .InvalidConfig)

/-- Modelled from the spec: `setMargin(s)` updates SolverConfig; fails with
`InvalidConfig` if the value is outside (0,1], leaving the state unchanged. -/
def setMargin (st : SolverState) (sv : ℚ) : SolverState × Option SolverError :=
  if 0 < sv ∧ sv ≤ 1 then ({ st with config := { st.config with s := sv } }, none)
  else (st, some .InvalidConfig)

/-- Modelled from the spec: `addHotspot(x, y, amplitude)` adds amplitude to
the named cell of the current Field; coordinates outside [0,N) fail with
`OutOfBounds` and have no effect (field unchanged). -/
def addHotspot (st : SolverState) (x y : ℤ) (amp : ℚ) : SolverState × Option SolverError :=
  if 0 ≤ x ∧ x < (st.n : ℤ) ∧ 0 ≤ y ∧ y < (st.n : ℤ) then
    let idx := y.toNat * st.n + x.toNat
    ({ st with field := st.field.set idx (st.field.getD idx 0 + amp) }, none)
  else (st, some .OutOfBounds)

/-- Claim C7: every failing Solver operation is all-or-nothing: setAlpha,
setMu and setMargin fail with InvalidConfig on a non-positive α or μ or an s
outside (0,1], and seeding a hotspot outside [0,N) fails with OutOfBounds; in
every failing case the returned state is exactly the input state — no partial
mutation, no silently swallowed error. -/
theorem solver_failures_all_or_nothing
    (st : SolverState) (a m sv : ℚ) (x y : ℤ) (amp : ℚ) :
    (a ≤ 0 → setAlpha st a = (st, some .InvalidConfig)) ∧
    (m ≤ 0 → setMu st m = (st, some .InvalidConfig)) ∧
    (sv ≤ 0 ∨ 1 < sv → setMargin st sv = (st, some .InvalidConfig)) ∧
    ((x < 0 ∨ (st.n : ℤ) ≤ x ∨ y < 0 ∨ (st.n : ℤ) ≤ y) →
      addHotspot st x y amp = (st, some .OutOfBounds)) ∧
    (∀ st2, setAlpha st a = (st2, some .InvalidConfig) → st2 = st) ∧
    (∀ st2, addHotspot st x y amp = (st2, some .OutOfBounds) → st2 = st) := by
  refine ⟨?_, ?_, ?_, ?_, ?_, ?_⟩
  · intro h
    unfold setAlpha
    rw [if_neg (by linarith)]
  · intro h
    unfold setMu
    rw [if_neg (by linarith)]
  · intro h
    unfold setMargin
    rw [if_neg ?_]
    rintro ⟨h1, h2⟩
    rcases h with h | h <;> linarith
  · intro h
    unfold addHotspot
    rw [if_neg ?_]
    rintro ⟨h1, h2, h3, h4⟩
    rcases h with h | h | h | h <;> omega
  · intro st2 h2
    unfold setAlpha at h2
    split_ifs at h2 with hc
    · simp at h2
    · exact (Prod.mk.injEq _ _ _ _ ▸ h2).1.symm ▸ rfl
  · intro st2 h2
    unfold addHotspot at h2
    split_ifs at h2 with hc
    · simp at h2
    · exact (Prod.mk.injEq _ _ _ _ ▸ h2).1.symm ▸ rfl

theorem solver_failures_all_or_nothing_witness :
    (setAlpha ⟨4, ⟨1, 1, 1⟩, [0]⟩ (-1) = (⟨4, ⟨1, 1, 1⟩, [0]⟩, some .InvalidConfig)) ∧
    (setMu ⟨4, ⟨1, 1, 1⟩, [0]⟩ 0 = (⟨4, ⟨1, 1, 1⟩, [0]⟩, some .InvalidConfig)) ∧
    (setMargin ⟨4, ⟨1, 1, 1⟩, [0]⟩ 2 = (⟨4, ⟨1, 1, 1⟩, [0]⟩, some .InvalidConfig)) ∧
    (addHotspot ⟨4, ⟨1, 1, 1⟩, [0]⟩ 7 0 1 = (⟨4, ⟨1, 1, 1⟩, [0]⟩, some .OutOfBounds)) :=
  ⟨(solver_failures_all_or_nothing ⟨4, ⟨1, 1, 1⟩, [0]⟩ (-1) 0 2 7 0 1).1 (by norm_num),
   (solver_failures_all_or_nothing ⟨4, ⟨1, 1, 1⟩, [0]⟩ (-1) 0 2 7 0 1).2.1 le_rfl,
   (solver_failures_all_or_nothing ⟨4, ⟨1, 1, 1⟩, [0]⟩ (-1) 0 2 7 0 1).2.2.1 (Or.inr (by norm_num)),
   (solver_failures_all_or_nothing ⟨4, ⟨1, 1, 1⟩, [0]⟩ (-1) 0 2 7 0 1).2.2.2.1 (Or.inr (Or.inl (by norm_num)))⟩

end ThermalAI
